import Mathlib

/-!  A shallow embedding of the model-loading, audio-capture and polling
logic of `src/components/StreamClient.tsx` (whisper.cpp-nextjs).

The component's React refs/state are collected in `ClientState`; the
externally visible effects of a run (network fetches, IndexedDB writes,
WASM-FS writes, progress updates, engine calls, log lines) are recorded
in program order as a list of `Ev` events.  Bytes are `List Nat`, PCM
samples are `List Int`, progress fractions are `ℚ`.  The network is
injected as a map from URL to a `FetchResult` script, and the fate of
the durable IndexedDB write as a `PutBehavior`. -/

namespace StreamClient

/-- Catalogue entry: the fields of `ModelMeta` that `loadModel` reads
(`models.find((m) => m.id === id)` and `meta.url`). -/
structure MetaEntry where
  id : String
  url : String
  deriving DecidableEq

/-- Externally visible effects, in program order. -/
inductive Ev where
  /-- `fetch(url, { signal })` was issued (StreamClient.tsx line 250). -/
  | fetchStarted (url : String)
  /-- `setPct(v)` was called; `none` is `setPct(null)` (clearing the bar),
  `some q` reports the fraction `q`. -/
  | progressSet (v : Option ℚ)
  /-- `writeModelToFS(bytes)`: the model bytes were installed at the fixed
  WASM-FS path `whisper.bin`. -/
  | fsWrite (bytes : List Nat)
  /-- `putCached(id, bytes)` durably committed the entry. -/
  | storePut (id : String) (bytes : List Nat)
  /-- `log(msg)`. -/
  | logged (msg : String)
  /-- `window.Module.init('whisper.bin')` returned `handle`. -/
  | engineInit (handle : Int)
  /-- `window.Module.set_audio(handle, buf)`. -/
  | feed (handle : Int) (buf : List Int)
  /-- `navigator.mediaDevices.getUserMedia({ audio: true })` acquired a
  microphone stream. -/
  | getUserMedia
  /-- `downloadAbortRef.current.abort()` fired. -/
  | abortFired
  deriving DecidableEq

/-- The component's state: React `useState` values and `useRef` cells of
`StreamClient`, plus the IndexedDB store contents, the WASM-FS mount, and
bookkeeping for interval-timer and recorder-handle identity. -/
structure ClientState where
  /-- catalogue (`models` state). -/
  models : List MetaEntry
  /-- IndexedDB `whisper-model-cache/models` contents; `List.lookup` is
  the read; `put` prepends (the first binding wins, as in a keyed store). -/
  store : List (String × List Nat)
  /-- `cachedModels` map: the set of ids marked `true`. -/
  cachedModels : List String
  selectedModelId : Option String
  /-- `downloadPct` state (`setPct`). -/
  downloadPct : Option ℚ
  ready : Bool
  wasmReady : Bool
  isRecording : Bool
  /-- bytes currently at the WASM-FS path `whisper.bin` (via
  `writeModelToFS`), if any. -/
  fsModel : Option (List Nat)
  /-- `instanceRef.current`: the engine handle, `none` for `null`. -/
  instanceRef : Option Int
  /-- `accAudioRef.current`: accumulated PCM samples, `none` for `null`. -/
  accAudioRef : Option (List Int)
  /-- `recorderRef.current`: `none` when no capture pipeline is held,
  `some rid` identifies the stream/source/proc triple acquired. -/
  recorderRef : Option Nat
  /-- allocator for recorder-handle identities. -/
  nextRecorderId : Nat
  /-- `pollTimerRef.current`: the interval id from `setInterval`. -/
  pollTimerRef : Option Nat
  /-- allocator for interval ids. -/
  nextTimerId : Nat
  /-- interval ids registered and not yet cleared by `clearInterval`. -/
  activeTimers : List Nat
  /-- text appended so far to the transcript `div`'s `textContent`. -/
  transcript : String
  /-- `statusRef.current.textContent`. -/
  statusText : String
  /-- whether `downloadAbortRef.current` holds a controller. -/
  downloadAbortRef : Bool
  /-- number of times `Module.init` has been invoked (engine-side count,
  used to mint fresh handles). -/
  engineInitCount : Nat
  deriving DecidableEq

/-- Script for one `fetch(url)`: response flags, the parsed
`Content-Length` (`Number(header) || 0`), the chunk sequence the body's
reader yields, and — when the user clicks cancel mid-stream — the number
of chunks delivered before the abort signal interrupts the read. -/
structure FetchResult where
  ok : Bool
  status : Nat
  hasBody : Bool
  contentLength : Nat
  chunks : List (List Nat)
  abortAfter : Option Nat
  deriving DecidableEq

/-- Fate of the `putCached` durable write: the promise resolves and the
entry commits (`succeeds`); the promise resolves but the transaction
later fails — `putCached` never awaits transaction completion, so the
caller cannot observe this (`silentFail`); or the promise rejects, e.g.
`openDB` fails or `put` throws synchronously (`rejects`). -/
inductive PutBehavior where
  | succeeds
  | silentFail
  | rejects
  deriving DecidableEq

/-- Outcome of `fetchWithProgress`. -/
inductive FetchOutcome where
  | success (bytes : List Nat)
  | httpError (status : Nat)
  | aborted
  deriving DecidableEq

/-- Running sums: `cumSums acc [x₁, x₂, …] = [acc+x₁, acc+x₁+x₂, …]` —
the successive values of `received` in the streaming loop. -/
def cumSums (acc : Nat) : List Nat → List Nat
  | [] => []
  | x :: xs => (acc + x) :: cumSums (acc + x) xs

/-- The fractions passed to the progress callback while streaming:
`received / contentLength` after each chunk. -/
def progressVals (total : Nat) (chunks : List (List Nat)) : List ℚ :=
  (cumSums 0 (chunks.map List.length)).map (fun rcv : ℕ => (rcv : ℚ) / (total : ℚ))

/-- The `cb(received / total)` events of the streaming loop; suppressed
when the parsed `Content-Length` is `0` (`if (total) cb(...)`). -/
def progressReports (total : Nat) (chunks : List (List Nat)) : List Ev :=
  if total = 0 then []
  else (progressVals total chunks).map (fun q => Ev.progressSet (some q))

/-- `fetchWithProgress` (StreamClient.tsx lines 245–272): throw on
`!r.ok || !r.body`; otherwise read the body chunk by chunk, reporting
`received / total` when the length is known; an abort signal firing
after `n` of the chunks rejects the pending read with `AbortError`
(no further chunks, no further reports).  The returned bytes are the
concatenation of the received chunks. -/
def fetchWithProgress (r : FetchResult) : FetchOutcome × List Ev :=
  if r.ok && r.hasBody then
    match r.abortAfter with
    | none => (.success r.chunks.flatten, progressReports r.contentLength r.chunks)
    | some n =>
      if n < r.chunks.length then
        (.aborted, progressReports r.contentLength (r.chunks.take n))
      else
        (.success r.chunks.flatten, progressReports r.contentLength r.chunks)
  else (.httpError r.status, [])

/-- `markModelCached(id)`: set the id's flag in the `cachedModels` map. -/
def markModelCached (id : String) (st : ClientState) : ClientState :=
  if id ∈ st.cachedModels then st
  else { st with cachedModels := id :: st.cachedModels }

/-- `handleCancelDownload` (lines 329–336): if a controller is held,
`abort()`, then `setPct(null)`, `setSelectedModelId(null)`,
`setReady(false)`. -/
def handleCancelDownload (st : ClientState) : ClientState × List Ev :=
  if st.downloadAbortRef then
    ({ st with downloadPct := none, selectedModelId := none, ready := false },
     [.abortFired, .progressSet none])
  else (st, [])

/-- `loadModel` (lines 275–327).  Branches: unknown id → immediate
return; cache hit → mount cached bytes, set ready; else stream-download
with progress, then `setPct(1)`, mount, `await putCached`, log, set
ready — an `AbortError` reaches the `catch` after `handleCancelDownload`
ran at the click, a rejected put or HTTP error logs `download failed`
and skips `setReady`.  The `finally` clears `downloadAbortRef`. -/
def loadModel (net : String → FetchResult) (pb : PutBehavior)
    (st : ClientState) (id : String) : ClientState × List Ev :=
  match st.models.find? (fun m => m.id == id) with
  | none => (st, [])
  | some meta =>
    let st1 : ClientState :=
      { st with selectedModelId := some id, ready := false, downloadPct := none }
    let ev0 : List Ev :=
      [.progressSet none, .logged ("js: loading model " ++ id)]
    match List.lookup id st1.store with
    | some bytes =>
        let st2 := { st1 with fsModel := some bytes, ready := true }
        (markModelCached id st2,
         ev0 ++ [.logged "js: using cached copy", .fsWrite bytes])
    | none =>
        let st2 := { st1 with downloadAbortRef := true }
        let fr := fetchWithProgress (net meta.url)
        let ev1 := ev0 ++ [.fetchStarted meta.url] ++ fr.2
        match fr.1 with
        | .success bytes =>
          let st3 := { st2 with downloadPct := some 1, fsModel := some bytes }
          let ev2 := ev1 ++ [.progressSet (some 1), .fsWrite bytes]
          match pb with
          | .succeeds =>
            let st4 := { st3 with store := (id, bytes) :: st3.store, ready := true }
            ({ markModelCached id st4 with downloadAbortRef := false },
             ev2 ++ [.storePut id bytes, .logged "js: model cached"])
          | .silentFail =>
            let st4 := { st3 with ready := true }
            ({ markModelCached id st4 with downloadAbortRef := false },
             ev2 ++ [.logged "js: model cached"])
          | .rejects =>
            ({ st3 with downloadAbortRef := false },
             ev2 ++ [.logged "js: download failed"])
        | .aborted =>
          let c := handleCancelDownload st2
          ({ c.1 with downloadAbortRef := false },
           ev1 ++ c.2 ++ [.logged "js: download cancelled"])
        | .httpError _ =>
          ({ st2 with downloadAbortRef := false },
           ev1 ++ [.logged "js: download failed"])

/-- JS truthiness of `instanceRef.current`: `null` and `0` are falsy. -/
def instTruthy : Option Int → Bool
  | none => false
  | some h => h != 0

/-- `proc.onaudioprocess` (lines 348–357): copy the transient input
frame, append it to the accumulator (`merged = prev ++ chunk`), store
the merged buffer, and — when `instanceRef.current` is truthy — pass the
entire merged buffer to `Module.set_audio`. -/
def onaudioprocess (input : List Int) (st : ClientState) : ClientState × List Ev :=
  let merged := st.accAudioRef.getD [] ++ input
  let st1 := { st with accAudioRef := some merged }
  if instTruthy st1.instanceRef then
    (st1, [.feed (st1.instanceRef.getD 0) merged])
  else (st1, [])

/-- Run a sequence of capture callbacks, concatenating their events. -/
def runCallbacks : List (List Int) → ClientState → ClientState × List Ev
  | [], st => (st, [])
  | c :: cs, st =>
    let q := onaudioprocess c st
    let p := runCallbacks cs q.1
    (p.1, q.2 ++ p.2)

/-- `startRecording` (lines 339–361), success path: acquire a microphone
stream, build source/processor nodes, install `onaudioprocess`, and
store the triple in `recorderRef` (overwriting any previous value). -/
def startRecording (st : ClientState) : ClientState × List Ev :=
  ({ st with recorderRef := some st.nextRecorderId,
             nextRecorderId := st.nextRecorderId + 1 },
   [.getUserMedia])

/-- `stopRecording` (lines 363–371): no-op when `recorderRef` is null;
otherwise disconnect the nodes, stop the stream's tracks, and reset both
`recorderRef` and `accAudioRef` to null. -/
def stopRecording (st : ClientState) : ClientState :=
  match st.recorderRef with
  | none => st
  | some _ => { st with recorderRef := none, accAudioRef := none }

/-- `startWhisper` (lines 373–389): bail unless `ready && wasmReady`;
if `instanceRef.current` is falsy, call `Module.init('whisper.bin')`
(modelled from the spec: the engine's `init` lives in `stream.js`, not
under `src/`; §4.3 says it returns an opaque handle, falsy meaning
failure — we model the successful case, minting the nonzero handle
`engineInitCount + 1`); then `startRecording()` (fire-and-forget),
`setIsRecording(true)`, and register the poll interval. -/
def startWhisper (st : ClientState) : ClientState × List Ev :=
  if st.ready && st.wasmReady then
    let p :=
      if instTruthy st.instanceRef then (st, ([] : List Ev))
      else
        let h : Int := (st.engineInitCount : Int) + 1
        ({ st with instanceRef := some h,
                   engineInitCount := st.engineInitCount + 1 },
         [.engineInit h, .logged "js: whisper init"])
    let q := startRecording p.1
    let st2 := { q.1 with isRecording := true }
    let tid := st2.nextTimerId
    ({ st2 with pollTimerRef := some tid,
                activeTimers := tid :: st2.activeTimers,
                nextTimerId := tid + 1 },
     p.2 ++ q.2)
  else (st, [])

/-- The Start-Recording button (line 527–534): `onClick={startWhisper}`
guarded by `disabled={!ready || !wasmReady || isRecording}` — a click on
a disabled button does nothing. -/
def clickStartRecording (st : ClientState) : ClientState × List Ev :=
  if !st.ready || !st.wasmReady || st.isRecording then (st, [])
  else startWhisper st

/-- `stopWhisper` (lines 391–396): `stopRecording()`,
`setIsRecording(false)`, `clearInterval` on the held timer id (the ref
itself is not nulled), and set the status text. -/
def stopWhisper (st : ClientState) : ClientState :=
  let st1 := stopRecording st
  let st2 := { st1 with isRecording := false }
  let st3 :=
    match st2.pollTimerRef with
    | some t => { st2 with activeTimers := st2.activeTimers.erase t }
    | none => st2
  { st3 with statusText := "recording stopped" }

/-- One tick of the poll interval body (lines 381–388): if
`get_transcribed()` returned truthy text, append `txt + '\n'` to the
transcript; always republish `get_status()`. -/
def pollTick (txt : Option String) (status : String) (st : ClientState) :
    ClientState :=
  let st1 :=
    match txt with
    | some t => if t = "" then st else { st with transcript := st.transcript ++ t ++ "\n" }
    | none => st
  { st1 with statusText := status }

/-- Run successive poll ticks for a scripted sequence of
`get_transcribed()` results (status text held at `""`). -/
def runPolls : List (Option String) → ClientState → ClientState
  | [], st => st
  | t :: ts, st => runPolls ts (pollTick t "" st)

/- ----------------------- event extractors ------------------------- -/

/-- Is the event a network fetch? -/
def isFetch : Ev → Bool
  | .fetchStarted _ => true
  | _ => false

/-- Number of network fetches in a trace. -/
def fetchCount (evs : List Ev) : Nat := (evs.filter isFetch).length

/-- The numeric fractions reported through the progress callback, in
order; `setPct(null)` resets carry no value and are excluded. -/
def progressValues (evs : List Ev) : List ℚ :=
  evs.filterMap fun e =>
    match e with
    | .progressSet (some q) => some q
    | _ => none

/-- Is the event a numeric progress report? -/
def isNumericProgress : Ev → Bool
  | .progressSet (some _) => true
  | _ => false

/-- The byte payloads written to the WASM FS, in order. -/
def fsWrites (evs : List Ev) : List (List Nat) :=
  evs.filterMap fun e =>
    match e with
    | .fsWrite b => some b
    | _ => none

/-- The buffers handed to `Module.set_audio`, in order. -/
def feedBuffers (evs : List Ev) : List (List Int) :=
  evs.filterMap fun e =>
    match e with
    | .feed _ b => some b
    | _ => none

/-- The durable store writes in a trace. -/
def storePuts (evs : List Ev) : List (String × List Nat) :=
  evs.filterMap fun e =>
    match e with
    | .storePut k b => some (k, b)
    | _ => none

/-- The suffix of a trace strictly after the (first) abort signal. -/
def afterAbort : List Ev → List Ev
  | [] => []
  | .abortFired :: rest => rest
  | _ :: rest => afterAbort rest

/-- The buffers the engine should see: the full accumulated prefix after
each callback (`feedSeq acc [c₁, c₂, …] = [acc++c₁, acc++c₁++c₂, …]`). -/
def feedSeq (acc : List Int) : List (List Int) → List (List Int)
  | [] => []
  | c :: cs => (acc ++ c) :: feedSeq (acc ++ c) cs

/-- The text a sequence of poll results contributes to the transcript:
each truthy fragment followed by a newline, in order. -/
def polledText : List (Option String) → String
  | [] => ""
  | none :: ts => polledText ts
  | some t :: ts => (if t = "" then "" else t ++ "\n") ++ polledText ts

/- ------------------- basic projection lemmas ---------------------- -/

@[simp] theorem markModelCached_models (id : String) (st : ClientState) :
    (markModelCached id st).models = st.models := by
  unfold markModelCached; split <;> rfl

@[simp] theorem markModelCached_store (id : String) (st : ClientState) :
    (markModelCached id st).store = st.store := by
  unfold markModelCached; split <;> rfl

@[simp] theorem markModelCached_ready (id : String) (st : ClientState) :
    (markModelCached id st).ready = st.ready := by
  unfold markModelCached; split <;> rfl

@[simp] theorem markModelCached_fsModel (id : String) (st : ClientState) :
    (markModelCached id st).fsModel = st.fsModel := by
  unfold markModelCached; split <;> rfl

@[simp] theorem markModelCached_selectedModelId (id : String) (st : ClientState) :
    (markModelCached id st).selectedModelId = st.selectedModelId := by
  unfold markModelCached; split <;> rfl

@[simp] theorem markModelCached_downloadPct (id : String) (st : ClientState) :
    (markModelCached id st).downloadPct = st.downloadPct := by
  unfold markModelCached; split <;> rfl

@[simp] theorem markModelCached_instanceRef (id : String) (st : ClientState) :
    (markModelCached id st).instanceRef = st.instanceRef := by
  unfold markModelCached; split <;> rfl

@[simp] theorem markModelCached_engineInitCount (id : String) (st : ClientState) :
    (markModelCached id st).engineInitCount = st.engineInitCount := by
  unfold markModelCached; split <;> rfl

@[simp] theorem markModelCached_downloadAbortRef (id : String) (st : ClientState) :
    (markModelCached id st).downloadAbortRef = st.downloadAbortRef := by
  unfold markModelCached; split <;> rfl

/- ---------------- loadModel path characterizations ---------------- -/

/-- Unknown id: `loadModel` returns before touching any state. -/
theorem loadModel_find_none (net : String → FetchResult) (pb : PutBehavior)
    (st : ClientState) (id : String)
    (hmeta : st.models.find? (fun m => m.id == id) = none) :
    loadModel net pb st id = (st, []) := by
  unfold loadModel
  rw [hmeta]

/-- Cache hit: mount the cached bytes, mark ready, no fetch. -/
theorem loadModel_cache_hit (net : String → FetchResult) (pb : PutBehavior)
    (st : ClientState) (id url : String) (bytes : List Nat)
    (hmeta : st.models.find? (fun m => m.id == id) = some ⟨id, url⟩)
    (hhit : List.lookup id st.store = some bytes) :
    loadModel net pb st id =
      (markModelCached id
        { st with selectedModelId := some id, downloadPct := none,
                  ready := true, fsModel := some bytes },
       [.progressSet none, .logged ("js: loading model " ++ id),
        .logged "js: using cached copy", .fsWrite bytes]) := by
  unfold loadModel
  rw [hmeta]
  dsimp only
  rw [hhit]
  rfl

/-- Cache miss, streamed download completes, durable write commits. -/
theorem loadModel_success (net : String → FetchResult)
    (st : ClientState) (id url : String) (r : FetchResult)
    (hmeta : st.models.find? (fun m => m.id == id) = some ⟨id, url⟩)
    (hmiss : List.lookup id st.store = none)
    (hnet : net url = r) (hok : r.ok = true) (hbody : r.hasBody = true)
    (hab : r.abortAfter = none) :
    loadModel net .succeeds st id =
      ({ markModelCached id
          { st with selectedModelId := some id, downloadPct := some 1,
                    ready := true, fsModel := some r.chunks.flatten,
                    store := (id, r.chunks.flatten) :: st.store,
                    downloadAbortRef := true }
         with downloadAbortRef := false },
       [.progressSet none, .logged ("js: loading model " ++ id), .fetchStarted url]
         ++ progressReports r.contentLength r.chunks
         ++ [.progressSet (some 1), .fsWrite r.chunks.flatten,
             .storePut id r.chunks.flatten, .logged "js: model cached"]) := by
  obtain ⟨ok, status, hb, len, chunks, ab⟩ := r
  dsimp only at hok hbody hab ⊢
  subst hok hbody hab
  unfold loadModel
  rw [hmeta]
  dsimp only
  rw [hmiss]
  dsimp only
  rw [hnet]
  rw [Prod.ext_iff]
  refine ⟨rfl, ?_⟩
  show ([Ev.progressSet none, Ev.logged ("js: loading model " ++ id)] ++ [Ev.fetchStarted url]
      ++ progressReports len chunks
      ++ [Ev.progressSet (some 1), Ev.fsWrite chunks.flatten])
      ++ [Ev.storePut id chunks.flatten, Ev.logged "js: model cached"] = _
  simp [List.append_assoc]

/-- Cache miss, streamed download completes, durable write fails
asynchronously after `put` was issued: `putCached` resolved before the
transaction settled, so the load proceeds exactly as on success — only
the store is left unchanged. -/
theorem loadModel_silent_put_failure (net : String → FetchResult)
    (st : ClientState) (id url : String) (r : FetchResult)
    (hmeta : st.models.find? (fun m => m.id == id) = some ⟨id, url⟩)
    (hmiss : List.lookup id st.store = none)
    (hnet : net url = r) (hok : r.ok = true) (hbody : r.hasBody = true)
    (hab : r.abortAfter = none) :
    loadModel net .silentFail st id =
      ({ markModelCached id
          { st with selectedModelId := some id, downloadPct := some 1,
                    ready := true, fsModel := some r.chunks.flatten,
                    downloadAbortRef := true }
         with downloadAbortRef := false },
       [.progressSet none, .logged ("js: loading model " ++ id), .fetchStarted url]
         ++ progressReports r.contentLength r.chunks
         ++ [.progressSet (some 1), .fsWrite r.chunks.flatten,
             .logged "js: model cached"]) := by
  obtain ⟨ok, status, hb, len, chunks, ab⟩ := r
  dsimp only at hok hbody hab ⊢
  subst hok hbody hab
  unfold loadModel
  rw [hmeta]
  dsimp only
  rw [hmiss]
  dsimp only
  rw [hnet]
  rw [Prod.ext_iff]
  refine ⟨rfl, ?_⟩
  show ([Ev.progressSet none, Ev.logged ("js: loading model " ++ id)] ++ [Ev.fetchStarted url]
      ++ progressReports len chunks
      ++ [Ev.progressSet (some 1), Ev.fsWrite chunks.flatten])
      ++ [Ev.logged "js: model cached"] = _
  simp [List.append_assoc]

/-- Cache miss, streamed download completes, but the `putCached` promise
rejects: the `await` throws into `loadModel`'s catch, which logs
`download failed`; `setReady(true)` and `markModelCached` never run,
although the bytes were already mounted in the WASM FS. -/
theorem loadModel_put_rejects (net : String → FetchResult)
    (st : ClientState) (id url : String) (r : FetchResult)
    (hmeta : st.models.find? (fun m => m.id == id) = some ⟨id, url⟩)
    (hmiss : List.lookup id st.store = none)
    (hnet : net url = r) (hok : r.ok = true) (hbody : r.hasBody = true)
    (hab : r.abortAfter = none) :
    loadModel net .rejects st id =
      ({ st with selectedModelId := some id, downloadPct := some 1,
                 ready := false, fsModel := some r.chunks.flatten,
                 downloadAbortRef := false },
       [.progressSet none, .logged ("js: loading model " ++ id), .fetchStarted url]
         ++ progressReports r.contentLength r.chunks
         ++ [.progressSet (some 1), .fsWrite r.chunks.flatten,
             .logged "js: download failed"]) := by
  obtain ⟨ok, status, hb, len, chunks, ab⟩ := r
  dsimp only at hok hbody hab ⊢
  subst hok hbody hab
  unfold loadModel
  rw [hmeta]
  dsimp only
  rw [hmiss]
  dsimp only
  rw [hnet]
  rw [Prod.ext_iff]
  refine ⟨rfl, ?_⟩
  show ([Ev.progressSet none, Ev.logged ("js: loading model " ++ id)] ++ [Ev.fetchStarted url]
      ++ progressReports len chunks
      ++ [Ev.progressSet (some 1), Ev.fsWrite chunks.flatten])
      ++ [Ev.logged "js: download failed"] = _
  simp [List.append_assoc]

/-- Cache miss, the cancel button is clicked after `n` of the chunks
arrived mid-stream: `handleCancelDownload` aborts and resets, the
pending read rejects with `AbortError`, and `loadModel`'s catch logs the
cancellation.  No store write, no mount, no ready. -/
theorem loadModel_aborted (net : String → FetchResult) (pb : PutBehavior)
    (st : ClientState) (id url : String) (r : FetchResult) (n : Nat)
    (hmeta : st.models.find? (fun m => m.id == id) = some ⟨id, url⟩)
    (hmiss : List.lookup id st.store = none)
    (hnet : net url = r) (hok : r.ok = true) (hbody : r.hasBody = true)
    (hab : r.abortAfter = some n) (hn : n < r.chunks.length) :
    loadModel net pb st id =
      ({ st with selectedModelId := none, downloadPct := none,
                 ready := false, downloadAbortRef := false },
       [.progressSet none, .logged ("js: loading model " ++ id), .fetchStarted url]
         ++ progressReports r.contentLength (r.chunks.take n)
         ++ [.abortFired, .progressSet none, .logged "js: download cancelled"]) := by
  obtain ⟨ok, status, hb, len, chunks, ab⟩ := r
  dsimp only at hok hbody hab hn ⊢
  subst hok hbody hab
  unfold loadModel
  rw [hmeta]
  dsimp only
  rw [hmiss]
  dsimp only
  rw [hnet]
  unfold fetchWithProgress
  dsimp only
  rw [if_pos hn]
  rw [Prod.ext_iff]
  refine ⟨rfl, ?_⟩
  show ([Ev.progressSet none, Ev.logged ("js: loading model " ++ id)] ++ [Ev.fetchStarted url]
      ++ progressReports len (chunks.take n))
      ++ [Ev.abortFired, Ev.progressSet none]
      ++ [Ev.logged "js: download cancelled"] = _
  simp [List.append_assoc]

/- ------------------- progress-report block lemmas ----------------- -/

theorem progressValues_map_some (qs : List ℚ) :
    progressValues (qs.map fun q => Ev.progressSet (some q)) = qs := by
  induction qs with
  | nil => rfl
  | cons q qs ih => simpa [progressValues] using ih

theorem progressValues_reports (t : Nat) (cs : List (List Nat)) :
    progressValues (progressReports t cs) =
      if t = 0 then [] else progressVals t cs := by
  unfold progressReports
  split
  · rfl
  · exact progressValues_map_some _

theorem filter_isFetch_reports (t : Nat) (cs : List (List Nat)) :
    (progressReports t cs).filter isFetch = [] := by
  unfold progressReports
  split
  · rfl
  · induction progressVals t cs with
    | nil => rfl
    | cons q qs ih => simp [isFetch, ih]

theorem fsWrites_reports (t : Nat) (cs : List (List Nat)) :
    fsWrites (progressReports t cs) = [] := by
  unfold progressReports
  split
  · rfl
  · induction progressVals t cs with
    | nil => rfl
    | cons q qs ih => simp [fsWrites, ih]

theorem reports_ne_abortFired (t : Nat) (cs : List (List Nat)) :
    ∀ e ∈ progressReports t cs, e ≠ Ev.abortFired := by
  unfold progressReports
  split
  · simp
  · intro e he
    rcases List.mem_map.mp he with ⟨q, -, rfl⟩
    simp

theorem afterAbort_append (l₁ l₂ : List Ev)
    (h : ∀ e ∈ l₁, e ≠ Ev.abortFired) :
    afterAbort (l₁ ++ l₂) = afterAbort l₂ := by
  induction l₁ with
  | nil => rfl
  | cons e es ih =>
    have he : e ≠ Ev.abortFired := h e (by simp)
    have ih' : afterAbort (es ++ l₂) = afterAbort l₂ :=
      ih fun x hx => h x (by simp [hx])
    cases e <;> simp_all [afterAbort]

/- ------------------------ cumSums lemmas -------------------------- -/

theorem cumSums_chain (l : List Nat) :
    ∀ acc : Nat, List.Chain' (· ≤ ·) (acc :: cumSums acc l) := by
  induction l with
  | nil => intro acc; simp [cumSums]
  | cons x xs ih =>
    intro acc
    rw [cumSums]
    exact List.Chain'.cons (Nat.le_add_right acc x) (ih (acc + x))

theorem chain'_cumSums (acc : Nat) (l : List Nat) :
    List.Chain' (· ≤ ·) (cumSums acc l) :=
  (cumSums_chain l acc).tail

theorem cumSums_le_sum (l : List Nat) :
    ∀ (acc x : Nat), x ∈ cumSums acc l → x ≤ acc + l.sum := by
  induction l with
  | nil => intro acc x hx; simp [cumSums] at hx
  | cons y ys ih =>
    intro acc x hx
    rw [cumSums] at hx
    rcases List.mem_cons.mp hx with rfl | hx
    · simp only [List.sum_cons]
      omega
    · have := ih (acc + y) x hx
      simp only [List.sum_cons]
      omega

theorem chain'_le_map (f : ℕ → ℚ) (hf : ∀ a b : ℕ, a ≤ b → f a ≤ f b) :
    ∀ l : List ℕ, List.Chain' (· ≤ ·) l → List.Chain' (· ≤ ·) (l.map f) := by
  intro l
  induction l with
  | nil => intro h; simp
  | cons a t ih =>
    intro h
    cases t with
    | nil => simp
    | cons b t' =>
      rw [List.map_cons, List.map_cons]
      rw [List.chain'_cons] at h
      refine List.chain'_cons.mpr ⟨hf a b h.1, ?_⟩
      rw [← List.map_cons]
      exact ih h.2

theorem progressVals_chain (t : Nat) (cs : List (List Nat)) (ht : 0 < t) :
    List.Chain' (· ≤ ·) (progressVals t cs) := by
  unfold progressVals
  refine chain'_le_map _ ?_ _ (chain'_cumSums 0 (cs.map List.length))
  intro a b hab
  have htq : (0 : ℚ) < (t : ℚ) := by exact_mod_cast ht
  exact div_le_div_of_nonneg_right (by exact_mod_cast hab) htq.le

theorem progressVals_le_one (t : Nat) (cs : List (List Nat)) (ht : 0 < t)
    (hsum : (cs.map List.length).sum ≤ t) :
    ∀ q ∈ progressVals t cs, q ≤ 1 := by
  intro q hq
  unfold progressVals at hq
  rcases List.mem_map.mp hq with ⟨rcv, hrcv, rfl⟩
  have h1 : rcv ≤ t := le_trans (by simpa using cumSums_le_sum _ 0 rcv hrcv) hsum
  have htq : (0 : ℚ) < (t : ℚ) := by exact_mod_cast ht
  rw [div_le_one htq]
  exact_mod_cast h1

theorem chain'_append_le_one (l : List ℚ)
    (hc : List.Chain' (· ≤ ·) l) (hb : ∀ q ∈ l, q ≤ 1) :
    List.Chain' (· ≤ ·) (l ++ [1]) := by
  rw [List.chain'_append]
  refine ⟨hc, List.chain'_singleton 1, ?_⟩
  intro x hx y hy
  simp only [List.head?_cons, Option.mem_def, Option.some.injEq] at hy
  subst hy
  obtain ⟨hne, hx'⟩ := List.mem_getLast?_eq_getLast hx
  exact hx' ▸ hb _ (List.getLast_mem hne)

/- --------------------- capture-pipeline lemmas -------------------- -/

theorem onaudioprocess_state (c : List Int) (st : ClientState) :
    (onaudioprocess c st).1 =
      { st with accAudioRef := some (st.accAudioRef.getD [] ++ c) } := by
  unfold onaudioprocess
  dsimp only
  split <;> rfl

theorem onaudioprocess_events (c : List Int) (st : ClientState) :
    (onaudioprocess c st).2 =
      if instTruthy st.instanceRef then
        [.feed (st.instanceRef.getD 0) (st.accAudioRef.getD [] ++ c)]
      else [] := by
  unfold onaudioprocess
  dsimp only
  split <;> rename_i h <;> simp_all

theorem runCallbacks_acc (cs : List (List Int)) : ∀ st : ClientState,
    (runCallbacks cs st).1.accAudioRef.getD [] =
      st.accAudioRef.getD [] ++ cs.flatten := by
  induction cs with
  | nil => intro st; simp [runCallbacks]
  | cons c cs ih =>
    intro st
    rw [runCallbacks]
    dsimp only
    rw [ih, onaudioprocess_state]
    simp [List.append_assoc]

theorem runCallbacks_instanceRef (cs : List (List Int)) : ∀ st : ClientState,
    (runCallbacks cs st).1.instanceRef = st.instanceRef := by
  induction cs with
  | nil => intro st; rfl
  | cons c cs ih =>
    intro st
    rw [runCallbacks]
    dsimp only
    rw [ih, onaudioprocess_state]

theorem runCallbacks_recorderRef (cs : List (List Int)) : ∀ st : ClientState,
    (runCallbacks cs st).1.recorderRef = st.recorderRef := by
  induction cs with
  | nil => intro st; rfl
  | cons c cs ih =>
    intro st
    rw [runCallbacks]
    dsimp only
    rw [ih, onaudioprocess_state]

theorem runCallbacks_events (cs : List (List Int)) : ∀ st : ClientState,
    instTruthy st.instanceRef = true →
    (runCallbacks cs st).2 =
      (feedSeq (st.accAudioRef.getD []) cs).map (Ev.feed (st.instanceRef.getD 0)) := by
  induction cs with
  | nil => intro st h; rfl
  | cons c cs ih =>
    intro st h
    rw [runCallbacks]
    dsimp only
    have hst := onaudioprocess_state c st
    rw [onaudioprocess_events, if_pos h,
        ih _ (by rw [hst]; exact h), hst]
    simp [feedSeq]

theorem feedBuffers_map_feed (h : Int) (bs : List (List Int)) :
    feedBuffers (bs.map (Ev.feed h)) = bs := by
  induction bs with
  | nil => rfl
  | cons b bs ih => simpa [feedBuffers] using ih

theorem stopRecording_eq_of_recorder (st : ClientState) (r : Nat)
    (h : st.recorderRef = some r) :
    stopRecording st = { st with recorderRef := none, accAudioRef := none } := by
  unfold stopRecording
  rw [h]

/- ------------------------ polling lemmas -------------------------- -/

theorem pollTick_transcript (txt : Option String) (status : String)
    (st : ClientState) :
    (pollTick txt status st).transcript =
      st.transcript ++
        (match txt with
         | some t => if t = "" then "" else t ++ "\n"
         | none => "") := by
  cases txt with
  | none => simp [pollTick]
  | some t =>
    unfold pollTick
    dsimp only
    split <;> simp_all [String.append_assoc]

/- --------------------- small generic helpers ---------------------- -/

theorem getLast?_append_singleton {α : Type} (l : List α) (a : α) :
    (l ++ [a]).getLast? = some a := by
  simp

theorem progressValues_append (l₁ l₂ : List Ev) :
    progressValues (l₁ ++ l₂) = progressValues l₁ ++ progressValues l₂ := by
  unfold progressValues
  exact List.filterMap_append _ _ _

theorem fsWrites_append (l₁ l₂ : List Ev) :
    fsWrites (l₁ ++ l₂) = fsWrites l₁ ++ fsWrites l₂ := by
  unfold fsWrites
  exact List.filterMap_append _ _ _

theorem fetchCount_append (l₁ l₂ : List Ev) :
    fetchCount (l₁ ++ l₂) = fetchCount l₁ + fetchCount l₂ := by
  unfold fetchCount
  rw [List.filter_append, List.length_append]

theorem fetchCount_reports (t : Nat) (cs : List (List Nat)) :
    fetchCount (progressReports t cs) = 0 := by
  unfold fetchCount
  rw [filter_isFetch_reports]
  rfl

/- ---------------------- concrete fixtures ------------------------- -/

/-- An all-empty starting state. -/
def idleState : ClientState :=
  { models := [], store := [], cachedModels := [], selectedModelId := none,
    downloadPct := none, ready := false, wasmReady := false, isRecording := false,
    fsModel := none, instanceRef := none, accAudioRef := none, recorderRef := none,
    nextRecorderId := 0, pollTimerRef := none, nextTimerId := 0, activeTimers := [],
    transcript := "", statusText := "", downloadAbortRef := false, engineInitCount := 0 }

/-- Catalogue with one model, empty store, WASM runtime up. -/
def m1State : ClientState :=
  { idleState with models := [⟨"ggml-m1.bin", "https://x/m1.bin"⟩], wasmReady := true }

/-- Response: `Content-Length: 4`, two 2-byte chunks, no cancellation. -/
def rTwoChunks : FetchResult :=
  { ok := true, status := 200, hasBody := true, contentLength := 4,
    chunks := [[1, 2], [3, 4]], abortAfter := none }

def netTwoChunks : String → FetchResult := fun _ => rTwoChunks

/-- Response whose `Content-Length` understates the body: header says 1
byte, the stream delivers a single 2-byte chunk. -/
def rShortLength : FetchResult :=
  { ok := true, status := 200, hasBody := true, contentLength := 1,
    chunks := [[7, 7]], abortAfter := none }

def netShortLength : String → FetchResult := fun _ => rShortLength

/-- Response cancelled after 1 of 2 chunks (2 of 4 bytes). -/
def rAbortMid : FetchResult :=
  { ok := true, status := 200, hasBody := true, contentLength := 4,
    chunks := [[1, 2], [3, 4]], abortAfter := some 1 }

def netAbortMid : String → FetchResult := fun _ => rAbortMid

/-- A network that always fails (never consulted in cache-hit runs). -/
def netDown : String → FetchResult :=
  fun _ => { ok := false, status := 0, hasBody := false, contentLength := 0,
             chunks := [], abortAfter := none }

/-- Catalogue with two models, both already in the durable store. -/
def catalogState : ClientState :=
  { idleState with
    models := [⟨"ggml-a.bin", "https://h/a"⟩, ⟨"ggml-b.bin", "https://h/b"⟩],
    store := [("ggml-a.bin", [1, 1]), ("ggml-b.bin", [2, 2, 2])],
    wasmReady := true }

/-- State with a live engine handle and an empty accumulator. -/
def feedState : ClientState := { idleState with instanceRef := some 1 }

/-- A mid-recording state: model ready, engine handle held, capture
pipeline and poll timer active. -/
def recordingState : ClientState :=
  { idleState with
    ready := true, wasmReady := true, isRecording := true,
    instanceRef := some 1, engineInitCount := 1, accAudioRef := some [5],
    recorderRef := some 0, nextRecorderId := 1, pollTimerRef := some 0,
    nextTimerId := 1, activeTimers := [0] }

/- =========================== claims =============================== -/

/-- Claim C1: for every model id, calling `loadModel` twice in a row with
no `clear()` in between performs exactly one network fetch; the second
call finds the entry in the persistent store and mounts byte-identical
content to the first call's downloaded bytes, and it never reports a
progress value through the progress callback (its only `setPct` call is
the initial `setPct(null)` reset, which carries no value). -/
theorem load_twice_single_fetch (net : String → FetchResult)
    (st : ClientState) (id url : String) (r : FetchResult)
    (hmeta : st.models.find? (fun m => m.id == id) = some ⟨id, url⟩)
    (hmiss : List.lookup id st.store = none)
    (hnet : net url = r) (hok : r.ok = true) (hbody : r.hasBody = true)
    (hab : r.abortAfter = none) :
    fetchCount (loadModel net .succeeds st id).2 = 1 ∧
    List.lookup id (loadModel net .succeeds st id).1.store = some r.chunks.flatten ∧
    fetchCount (loadModel net .succeeds (loadModel net .succeeds st id).1 id).2 = 0 ∧
    fsWrites (loadModel net .succeeds st id).2 = [r.chunks.flatten] ∧
    fsWrites (loadModel net .succeeds (loadModel net .succeeds st id).1 id).2
      = [r.chunks.flatten] ∧
    progressValues (loadModel net .succeeds (loadModel net .succeeds st id).1 id).2
      = [] := by
  have h1 := loadModel_success net st id url r hmeta hmiss hnet hok hbody hab
  have hmodels : (loadModel net .succeeds st id).1.models = st.models := by
    rw [h1]; simp
  have hstore : (loadModel net .succeeds st id).1.store
      = (id, r.chunks.flatten) :: st.store := by
    rw [h1]; simp
  have hhit2 : List.lookup id (loadModel net .succeeds st id).1.store
      = some r.chunks.flatten := by
    rw [hstore]; simp [List.lookup]
  have h2 := loadModel_cache_hit net .succeeds (loadModel net .succeeds st id).1
    id url r.chunks.flatten (by rw [hmodels]; exact hmeta) hhit2
  refine ⟨?_, hhit2, ?_, ?_, ?_, ?_⟩
  · rw [h1]
    show fetchCount (_ ++ _ ++ _) = 1
    rw [fetchCount_append, fetchCount_append, fetchCount_reports]
    rfl
  · rw [h2]; rfl
  · rw [h1]
    show fsWrites (_ ++ _ ++ _) = _
    rw [fsWrites_append, fsWrites_append, fsWrites_reports]
    rfl
  · rw [h2]; rfl
  · rw [h2]; rfl

/-- Witness for C1 at a concrete input: one catalogue entry, empty store,
a 4-byte body in two chunks. -/
theorem load_twice_single_fetch_witness :
    fetchCount (loadModel netTwoChunks .succeeds m1State "ggml-m1.bin").2 = 1 ∧
    List.lookup "ggml-m1.bin"
      (loadModel netTwoChunks .succeeds m1State "ggml-m1.bin").1.store
      = some rTwoChunks.chunks.flatten ∧
    fetchCount (loadModel netTwoChunks .succeeds
      (loadModel netTwoChunks .succeeds m1State "ggml-m1.bin").1 "ggml-m1.bin").2 = 0 ∧
    fsWrites (loadModel netTwoChunks .succeeds m1State "ggml-m1.bin").2
      = [rTwoChunks.chunks.flatten] ∧
    fsWrites (loadModel netTwoChunks .succeeds
      (loadModel netTwoChunks .succeeds m1State "ggml-m1.bin").1 "ggml-m1.bin").2
      = [rTwoChunks.chunks.flatten] ∧
    progressValues (loadModel netTwoChunks .succeeds
      (loadModel netTwoChunks .succeeds m1State "ggml-m1.bin").1 "ggml-m1.bin").2
      = [] :=
  load_twice_single_fetch netTwoChunks m1State "ggml-m1.bin" "https://x/m1.bin"
    rTwoChunks (by decide) (by decide) rfl rfl rfl rfl

/-- Claim C2 counterexample: a successful download whose response carries
`Content-Length: 1` but whose body is 2 bytes yields the progress value
sequence `[2, 1]` — the final `setPct(1)` in `loadModel` *decreases* it,
so the sequence is not non-decreasing although the download succeeded
and was determinate. -/
theorem progress_sequence_can_decrease :
    (loadModel netShortLength .succeeds m1State "ggml-m1.bin").1.ready = true ∧
    progressValues (loadModel netShortLength .succeeds m1State "ggml-m1.bin").2
      = [2, 1] ∧
    ¬ List.Chain' (· ≤ ·)
        (progressValues (loadModel netShortLength .succeeds m1State "ggml-m1.bin").2) := by
  have h := loadModel_success netShortLength m1State "ggml-m1.bin" "https://x/m1.bin"
    rShortLength (by decide) (by decide) rfl rfl rfl rfl
  have hvals : progressValues
      (loadModel netShortLength .succeeds m1State "ggml-m1.bin").2 = [2, 1] := by
    rw [h, progressValues_append, progressValues_append, progressValues_reports]
    norm_num [rShortLength, progressVals, cumSums, progressValues]
    rfl
  refine ⟨?_, hvals, ?_⟩
  · rw [h]
    simp
  · rw [hvals]
    intro hch
    rw [List.chain'_cons] at hch
    norm_num at hch

/-- Claim C2 (amended): for every successful determinate download whose
received byte count does not exceed the advertised `Content-Length`, the
sequence of values passed to the progress callback is non-decreasing and
the final reported value equals 1. -/
theorem progress_monotone_final_one (net : String → FetchResult)
    (pb : PutBehavior) (st : ClientState) (id url : String) (r : FetchResult)
    (hmeta : st.models.find? (fun m => m.id == id) = some ⟨id, url⟩)
    (hmiss : List.lookup id st.store = none)
    (hnet : net url = r) (hok : r.ok = true) (hbody : r.hasBody = true)
    (hab : r.abortAfter = none)
    (hpos : 0 < r.contentLength)
    (hsum : (r.chunks.map List.length).sum ≤ r.contentLength) :
    List.Chain' (· ≤ ·) (progressValues (loadModel net pb st id).2) ∧
    (progressValues (loadModel net pb st id).2).getLast? = some 1 := by
  have hvals : progressValues (loadModel net pb st id).2
      = progressVals r.contentLength r.chunks ++ [1] := by
    cases pb with
    | succeeds =>
      rw [loadModel_success net st id url r hmeta hmiss hnet hok hbody hab]
      rw [progressValues_append, progressValues_append, progressValues_reports,
          if_neg (Nat.pos_iff_ne_zero.mp hpos)]
      rfl
    | silentFail =>
      rw [loadModel_silent_put_failure net st id url r hmeta hmiss hnet hok hbody hab]
      rw [progressValues_append, progressValues_append, progressValues_reports,
          if_neg (Nat.pos_iff_ne_zero.mp hpos)]
      rfl
    | rejects =>
      rw [loadModel_put_rejects net st id url r hmeta hmiss hnet hok hbody hab]
      rw [progressValues_append, progressValues_append, progressValues_reports,
          if_neg (Nat.pos_iff_ne_zero.mp hpos)]
      rfl
  rw [hvals]
  exact ⟨chain'_append_le_one _ (progressVals_chain _ _ hpos)
          (progressVals_le_one _ _ hpos hsum),
        getLast?_append_singleton _ _⟩

/-- Witness for the amended C2 at a concrete input: `Content-Length: 4`,
two 2-byte chunks; the reported values are `[1/2, 1, 1]`. -/
theorem progress_monotone_final_one_witness :
    List.Chain' (· ≤ ·)
      (progressValues (loadModel netTwoChunks .succeeds m1State "ggml-m1.bin").2) ∧
    (progressValues (loadModel netTwoChunks .succeeds m1State "ggml-m1.bin").2).getLast?
      = some 1 :=
  progress_monotone_final_one netTwoChunks .succeeds m1State "ggml-m1.bin"
    "https://x/m1.bin" rTwoChunks (by decide) (by decide) rfl rfl rfl rfl
    (by decide) (by decide)

/-- Claim C3: if the abort controller fires after `n` of the chunks have
been received mid-stream, the load ends as a cancellation (the last log
line is `download cancelled`, not a failure), no entry for the id is
created in the persistent store, and after the abort signal no further
progress value is ever reported — the only later `setPct` call is the
`setPct(null)` reset in `handleCancelDownload`. -/
theorem cancellation_clean (net : String → FetchResult) (pb : PutBehavior)
    (st : ClientState) (id url : String) (r : FetchResult) (n : Nat)
    (hmeta : st.models.find? (fun m => m.id == id) = some ⟨id, url⟩)
    (hmiss : List.lookup id st.store = none)
    (hnet : net url = r) (hok : r.ok = true) (hbody : r.hasBody = true)
    (hab : r.abortAfter = some n) (hn : n < r.chunks.length) :
    (loadModel net pb st id).1.store = st.store ∧
    List.lookup id (loadModel net pb st id).1.store = none ∧
    (loadModel net pb st id).1.ready = false ∧
    (loadModel net pb st id).1.selectedModelId = none ∧
    (loadModel net pb st id).1.downloadPct = none ∧
    (loadModel net pb st id).2.getLast? = some (.logged "js: download cancelled") ∧
    afterAbort (loadModel net pb st id).2
      = [.progressSet none, .logged "js: download cancelled"] := by
  have h := loadModel_aborted net pb st id url r n hmeta hmiss hnet hok hbody hab hn
  rw [h]
  refine ⟨rfl, hmiss, rfl, rfl, rfl, ?_, ?_⟩
  · have hsplit :
        ([Ev.progressSet none, Ev.logged ("js: loading model " ++ id),
          Ev.fetchStarted url]
          ++ progressReports r.contentLength (r.chunks.take n)
          ++ [Ev.abortFired, Ev.progressSet none,
              Ev.logged "js: download cancelled"])
        = ([Ev.progressSet none, Ev.logged ("js: loading model " ++ id),
            Ev.fetchStarted url]
            ++ progressReports r.contentLength (r.chunks.take n)
            ++ [Ev.abortFired, Ev.progressSet none])
          ++ [Ev.logged "js: download cancelled"] := by
      simp [List.append_assoc]
    rw [hsplit, getLast?_append_singleton]
  · rw [show ([Ev.progressSet none, Ev.logged ("js: loading model " ++ id),
          Ev.fetchStarted url]
          ++ progressReports r.contentLength (r.chunks.take n)
          ++ [Ev.abortFired, Ev.progressSet none,
              Ev.logged "js: download cancelled"])
        = ([Ev.progressSet none, Ev.logged ("js: loading model " ++ id),
            Ev.fetchStarted url]
            ++ progressReports r.contentLength (r.chunks.take n))
          ++ (Ev.abortFired
              :: [Ev.progressSet none, Ev.logged "js: download cancelled"]) from by
        simp [List.append_assoc]]
    rw [afterAbort_append]
    · rfl
    · intro e he
      rcases List.mem_append.mp he with he | he
      · simp only [List.mem_cons, List.not_mem_nil, or_false] at he
        rcases he with rfl | rfl | rfl <;> simp
      · exact reports_ne_abortFired _ _ e he

/-- Witness for C3 at a concrete input: cancel fires after 1 of 2 chunks
(2 of 4 bytes). -/
theorem cancellation_clean_witness :
    (loadModel netAbortMid .succeeds m1State "ggml-m1.bin").1.store = m1State.store ∧
    List.lookup "ggml-m1.bin"
      (loadModel netAbortMid .succeeds m1State "ggml-m1.bin").1.store = none ∧
    (loadModel netAbortMid .succeeds m1State "ggml-m1.bin").1.ready = false ∧
    (loadModel netAbortMid .succeeds m1State "ggml-m1.bin").1.selectedModelId = none ∧
    (loadModel netAbortMid .succeeds m1State "ggml-m1.bin").1.downloadPct = none ∧
    (loadModel netAbortMid .succeeds m1State "ggml-m1.bin").2.getLast?
      = some (.logged "js: download cancelled") ∧
    afterAbort (loadModel netAbortMid .succeeds m1State "ggml-m1.bin").2
      = [.progressSet none, .logged "js: download cancelled"] :=
  cancellation_clean netAbortMid .succeeds m1State "ggml-m1.bin" "https://x/m1.bin"
    rAbortMid 1 (by decide) (by decide) rfl rfl rfl rfl (by decide)

/-- Claim C4 (code-bug demonstration): when the download succeeds but the
`putCached` promise rejects, the bytes were already mounted in the WASM
FS, yet `setReady(true)` never runs and the failure is logged as
`download failed`: the rejection propagates into `loadModel`'s catch,
so a store-write rejection *does* fail the load.  (A write failure that
occurs only after the `put` request was issued is invisible — `putCached`
never awaits transaction completion — and the load then succeeds, last
conjunct.) -/
theorem put_rejection_fails_load :
    (loadModel netTwoChunks .rejects m1State "ggml-m1.bin").1.ready = false ∧
    (loadModel netTwoChunks .rejects m1State "ggml-m1.bin").1.fsModel
      = some [1, 2, 3, 4] ∧
    (loadModel netTwoChunks .rejects m1State "ggml-m1.bin").1.cachedModels = [] ∧
    (loadModel netTwoChunks .rejects m1State "ggml-m1.bin").2.getLast?
      = some (.logged "js: download failed") ∧
    (loadModel netTwoChunks .silentFail m1State "ggml-m1.bin").1.ready = true := by
  decide

/-- Claim C5 counterexample: polling `"hello "`, then `"world"`, then
nothing does not produce the transcript `"hello world"`: the poll body
appends `txt + '\n'` after every fragment, so the observable transcript
is `"hello \nworld\n"`. -/
theorem transcript_gains_newlines :
    (runPolls [some "hello ", some "world", none] idleState).transcript
      = "hello \nworld\n" ∧
    (runPolls [some "hello ", some "world", none] idleState).transcript
      ≠ "hello world" := by
  decide

/-- Claim C5 (amended): for every sequence of poll results and starting
state, the transcript after the polls equals the old transcript followed
by each truthy polled fragment, once, in order, each terminated by a
newline — append-only: earlier text is never rewritten, duplicated or
reordered. -/
theorem transcript_append_only (ts : List (Option String)) (st : ClientState) :
    (runPolls ts st).transcript = st.transcript ++ polledText ts := by
  induction ts generalizing st with
  | nil => simp [runPolls, polledText]
  | cons t ts ih =>
    rw [runPolls, ih, pollTick_transcript]
    cases t <;> simp [polledText, String.append_assoc]

/-- Claim C6: stopping recording resets the accumulator to null; after
stopping and restarting, the accumulated window contains exactly the
samples delivered by the second recording's capture callbacks — nothing
carries over from the first window, whatever the starting state and
whatever the first window contained. -/
theorem accumulator_reset_on_stop (st : ClientState)
    (cs₁ cs₂ : List (List Int)) :
    (stopRecording (runCallbacks cs₁ (startRecording st).1).1).accAudioRef = none ∧
    (runCallbacks cs₂ (startRecording
        (stopRecording (runCallbacks cs₁ (startRecording st).1).1)).1).1.accAudioRef.getD []
      = cs₂.flatten := by
  have hrec : (runCallbacks cs₁ (startRecording st).1).1.recorderRef
      = some st.nextRecorderId := by
    rw [runCallbacks_recorderRef]
    rfl
  have hstop := stopRecording_eq_of_recorder _ _ hrec
  refine ⟨by rw [hstop], ?_⟩
  rw [hstop, runCallbacks_acc]
  rfl

/-- Claim C7: with a live engine handle and an empty accumulator, each
capture callback appends its (copied) frame to the accumulator — after
`n` callbacks the accumulator is the in-order concatenation of the `n`
frames — and every callback passes the entire accumulated buffer so far,
not just the new frame, to `Module.set_audio`. -/
theorem feed_entire_accumulated_buffer (st : ClientState)
    (cs : List (List Int))
    (hinst : instTruthy st.instanceRef = true)
    (hacc : st.accAudioRef = none) :
    (runCallbacks cs st).1.accAudioRef.getD [] = cs.flatten ∧
    feedBuffers (runCallbacks cs st).2 = feedSeq [] cs := by
  constructor
  · rw [runCallbacks_acc, hacc]
    rfl
  · rw [runCallbacks_events cs st hinst, hacc]
    exact feedBuffers_map_feed _ _

/-- Witness for C7 at a concrete input: two frames. -/
theorem feed_entire_accumulated_buffer_witness :
    (runCallbacks [[1, 2], [3]] feedState).1.accAudioRef.getD []
      = ([[1, 2], [3]] : List (List Int)).flatten ∧
    feedBuffers (runCallbacks [[1, 2], [3]] feedState).2
      = feedSeq [] [[1, 2], [3]] :=
  feed_entire_accumulated_buffer feedState [[1, 2], [3]] (by decide) rfl

/-- Claim C8 counterexample: calling `startWhisper` while a recording is
already active is not a no-op — the function has no recording guard: it
acquires a second microphone stream, replaces the recorder handles, and
registers a second poll interval while the first is still active. -/
theorem startWhisper_while_recording_not_noop :
    (startWhisper recordingState).1 ≠ recordingState ∧
    (startWhisper recordingState).1.activeTimers = [1, 0] ∧
    (startWhisper recordingState).1.recorderRef = some 1 ∧
    Ev.getUserMedia ∈ (startWhisper recordingState).2 := by
  decide

/-- Claim C8 (amended): while recording, starting again is prevented only
at the UI level — the Start button is disabled, so a click does nothing —
but the `startWhisper` function itself has no recording guard: invoked
directly in a ready, recording state it reuses the engine handle, yet
acquires a new microphone stream, overwrites the recorder handles, and
registers a second poll interval on top of the still-active first one. -/
theorem start_recording_guard_ui_only (st : ClientState)
    (hrec : st.isRecording = true) (hready : st.ready = true)
    (hwasm : st.wasmReady = true)
    (hinst : instTruthy st.instanceRef = true) :
    clickStartRecording st = (st, []) ∧
    (startWhisper st).1.instanceRef = st.instanceRef ∧
    (startWhisper st).1.recorderRef = some st.nextRecorderId ∧
    (startWhisper st).1.pollTimerRef = some st.nextTimerId ∧
    (startWhisper st).1.activeTimers = st.nextTimerId :: st.activeTimers ∧
    Ev.getUserMedia ∈ (startWhisper st).2 := by
  have hclick : clickStartRecording st = (st, []) := by
    unfold clickStartRecording
    rw [hrec]
    simp
  refine ⟨hclick, ?_, ?_, ?_, ?_, ?_⟩ <;>
    simp [startWhisper, startRecording, hready, hwasm, hinst]

/-- Witness for the amended C8 at the concrete mid-recording state. -/
theorem start_recording_guard_ui_only_witness :
    clickStartRecording recordingState = (recordingState, []) ∧
    (startWhisper recordingState).1.instanceRef = recordingState.instanceRef ∧
    (startWhisper recordingState).1.recorderRef
      = some recordingState.nextRecorderId ∧
    (startWhisper recordingState).1.pollTimerRef
      = some recordingState.nextTimerId ∧
    (startWhisper recordingState).1.activeTimers
      = recordingState.nextTimerId :: recordingState.activeTimers ∧
    Ev.getUserMedia ∈ (startWhisper recordingState).2 :=
  start_recording_guard_ui_only recordingState rfl rfl rfl (by decide)

/-- Scenario for C9: load cached model a, record, stop, select model b,
record again. -/
def afterLoadA : ClientState :=
  (loadModel netDown .succeeds catalogState "ggml-a.bin").1

def afterStartA : ClientState := (startWhisper afterLoadA).1

def afterStop : ClientState := stopWhisper afterStartA

def afterLoadB : ClientState :=
  (loadModel netDown .succeeds afterStop "ggml-b.bin").1

def afterRestart : ClientState := (startWhisper afterLoadB).1

/-- Claim C9 (code-bug demonstration): the engine handle persists across
a record/stop cycle without re-`init` (true half), but selecting a
different model does *not* discard it: `loadModel` never clears
`instanceRef`, so after loading model b the handle initialized against
model a's bytes is still held, `startWhisper` skips `init` although the
engine FS now holds b's bytes, and `init` ran exactly once in total. -/
theorem model_switch_keeps_stale_handle :
    afterStartA.instanceRef = some 1 ∧
    afterStartA.fsModel = some [1, 1] ∧
    afterStop.instanceRef = some 1 ∧
    afterLoadB.instanceRef = some 1 ∧
    afterLoadB.fsModel = some [2, 2, 2] ∧
    afterRestart.instanceRef = some 1 ∧
    afterRestart.engineInitCount = 1 ∧
    afterRestart.isRecording = true := by
  decide

/-- Claim C10: for every id not present in the current catalogue,
`loadModel` returns immediately with no observable effect: the state —
selection, readiness, progress, persistent store, engine FS — is
returned untouched and no effect event is emitted. -/
theorem loadModel_unknown_id_noop (net : String → FetchResult)
    (pb : PutBehavior) (st : ClientState) (id : String)
    (h : ∀ m ∈ st.models, m.id ≠ id) :
    loadModel net pb st id = (st, []) := by
  apply loadModel_find_none
  rw [List.find?_eq_none]
  intro m hm
  simpa using h m hm

/-- Witness for C10 at a concrete input: an id absent from the catalogue. -/
theorem loadModel_unknown_id_noop_witness :
    loadModel netDown .succeeds catalogState "ggml-zz.bin" = (catalogState, []) :=
  loadModel_unknown_id_noop netDown .succeeds catalogState "ggml-zz.bin" (by decide)

end StreamClient
